import Mathlib

/-!
Shallow embedding of the handle-indexed asset store of this repository.

Sources embedded here:

* `src/amethyst_assets/src/storage.rs` — `AssetStorage<A>`, `Handle<A>`,
  `Processed<A>`: a dense slot array (`VecStorage`) guarded by a presence
  bitset, a live-handle list, a multi-producer queue of processed items and a
  free pool of unused handles.  A `Handle<A>` is an `Arc<u32>`; every id is
  minted for exactly one `Arc` cell (`allocate_new` creates a fresh cell, the
  pool recycles the same cell), so a handle value is represented by its id,
  and the strong count of the cell is recovered from the store state
  (`strongCount`): it counts the external clones plus the copies sitting in
  the live-handle list, the free pool and the processed queue.
* `src/amethyst_core/src/named.rs` — `Named`, `NameCache`, `FindNamed::find`.
* `src/src/asset_manager/asset.rs` — `AssetStoreError` and its
  `From<io::Error>` conversion.

Machine integers (`u32` ids, `usize` positions) are modelled as `Nat`; no
arithmetic here can overflow a `u32` in the scenarios considered, and the
allocator is monotone, so no wrap-around behaviour is involved.  `BoxedErr`
payloads are modelled as `String`.
-/

namespace Amethyst

/-- An item of the processed queue (`Processed<A>` in storage.rs): the
production result for `handle`, plus diagnostic metadata `format`/`name`. -/
structure Processed (D : Type) where
  data : Except String D
  format : String
  handle : Nat
  name : String

/-- The error forwarded to the error sink (`AssetError::new(name, format, e)`
in the error path of `AssetStorage::process`). -/
structure AssetError where
  name : String
  format : String
  err : String
deriving DecidableEq

/-- State of `AssetStorage<A>` (storage.rs lines 16-24), together with the
environment-facing reference-count bookkeeping: `extCount id` is the number of
external (consumer-held) clones of the `Arc` cell of handle `id`.  `assets` is
the `VecStorage` slot array, `none` standing for an uninitialized slot;
`bitset` the presence bitset; `handles` the live-handle list; `nextId` the
state of the id `Allocator`; `processed` the pending queue (FIFO, head popped
first); `unusedHandles` the free-handle pool (FIFO). -/
structure AssetStorage (A D : Type) where
  assets : Nat → Option A
  bitset : Nat → Bool
  handles : List Nat
  nextId : Nat
  processed : List (Processed D)
  unusedHandles : List Nat
  extCount : Nat → Nat

/-- `AssetStorage::new`: everything empty. -/
def AssetStorage.new {A D : Type} : AssetStorage A D :=
  { assets := fun _ => none
    bitset := fun _ => false
    handles := []
    nextId := 0
    processed := []
    unusedHandles := []
    extCount := fun _ => 0 }

/-- `Arc::strong_count` of the cell of handle `id`: one per clone, wherever it
is held — externally, in the live-handle list, in the free pool, or attached
to a queued `Processed` item. -/
def strongCount {A D : Type} (st : AssetStorage A D) (id : Nat) : Nat :=
  st.extCount id + st.handles.count id + st.unusedHandles.count id
    + (st.processed.map Processed.handle).count id

/-- `Handle::is_unused`: `Arc::strong_count(&self.id) == 1`. -/
def AssetStorage.is_unused {A D : Type} (st : AssetStorage A D) (id : Nat) : Bool :=
  strongCount st id == 1

/-- `Handle::is_unique`: `Arc::strong_count(&self.id) == 2`. -/
def AssetStorage.is_unique {A D : Type} (st : AssetStorage A D) (id : Nat) : Bool :=
  strongCount st id == 2

/-- `AssetStorage::allocate`: pop the free pool, else mint a fresh id
(`allocate_new`).  The returned handle is held by the caller, hence the
`extCount` bump; popping the pool moves the pooled clone out, so the strong
count of a recycled cell is unchanged overall. -/
def allocate {A D : Type} (st : AssetStorage A D) : Nat × AssetStorage A D :=
  match st.unusedHandles with
  | h :: rest =>
    (h, { st with
            unusedHandles := rest
            extCount := fun j => if j = h then st.extCount j + 1 else st.extCount j })
  | [] =>
    (st.nextId, { st with
                    nextId := st.nextId + 1
                    extCount := fun j =>
                      if j = st.nextId then st.extCount j + 1 else st.extCount j })

/-- `Handle::clone` performed by an external holder: strong count + 1. -/
def cloneHandle {A D : Type} (st : AssetStorage A D) (id : Nat) : AssetStorage A D :=
  { st with extCount := fun j => if j = id then st.extCount j + 1 else st.extCount j }

/-- Drop of one external clone: strong count - 1. -/
def dropHandle {A D : Type} (st : AssetStorage A D) (id : Nat) : AssetStorage A D :=
  { st with extCount := fun j => if j = id then st.extCount j - 1 else st.extCount j }

/-- A producer pushes a `Processed` item onto the queue; the item carries its
own clone of the destination handle (so the strong count of the cell grows by the
queue occurrence). -/
def pushProcessed {A D : Type} (st : AssetStorage A D) (item : Processed D) :
    AssetStorage A D :=
  { st with processed := st.processed ++ [item] }

/-- `AssetStorage::get` (storage.rs lines 63-69): guarded by the bitset; the
`unsafe` read of the slot array is modelled by `getD default`, which equals
the stored value whenever the slot is initialized (the reachability invariant
proved below shows the guard only lets initialized slots through). -/
def get {A D : Type} [Inhabited A] (st : AssetStorage A D) (id : Nat) : Option A :=
  if st.bitset id then some ((st.assets id).getD default) else none

/-- `AssetStorage::get_mut` (storage.rs lines 72-78): same guard and access as
`get`; mutability is a borrow-checking artefact with no state effect. -/
def get_mut {A D : Type} [Inhabited A] (st : AssetStorage A D) (id : Nat) : Option A :=
  if st.bitset id then some ((st.assets id).getD default) else none

/-- One iteration of the drain loop of `AssetStorage::process` (storage.rs
lines 85-113) on a popped item: `data.and_then(|d| f(d))`; on failure the
error is reported (`errors.execute`) tagged with name and format, and the
handle clone of the item is dropped; on success the presence bit is set, the
handle is appended to the live list and the asset is written into the slot. -/
def processItem {A D : Type} (f : D → Except String A) (st : AssetStorage A D)
    (item : Processed D) : AssetStorage A D × Option AssetError :=
  match item.data.bind f with
  | Except.error e => (st, some ⟨item.name, item.format, e⟩)
  | Except.ok a =>
    ({ st with
        bitset := fun j => if j = item.handle then true else st.bitset j
        handles := st.handles ++ [item.handle]
        assets := fun j => if j = item.handle then some a else st.assets j },
      none)

/-- The full drain of the processed queue (`while let Some(processed) =
self.processed.try_pop()`), accumulating the error-sink reports in order. -/
def drain {A D : Type} (f : D → Except String A) :
    List (Processed D) → AssetStorage A D → List AssetError →
      AssetStorage A D × List AssetError
  | [], st, errs => (st, errs)
  | item :: rest, st, errs =>
    match processItem f st item with
    | (st1, none) => drain f rest st1 errs
    | (st1, some e) => drain f rest st1 (errs ++ [e])

/-- `self.handles.iter().position(Handle::is_unused)`: index of the first
handle in `l` (a suffix of the live list, `k` positions in) whose cell has
strong count in the current state is 1. -/
def findUnusedIdx {A D : Type} (st : AssetStorage A D) :
    List Nat → Nat → Option Nat
  | [], _ => none
  | id :: rest, k =>
    if st.is_unused id then some k else findUnusedIdx st rest (k + 1)

/-- One iteration of the reclamation loop of `AssetStorage::process`
(storage.rs lines 115-125): `swap_remove(i)` on the live list, then — exactly
as the source does with `let id = i as u32;` — the slot array entry and the
presence bit at index `i` (the *list position*, not the id of the removed handle)
are cleared, and the removed handle is pushed onto the free pool.
`Vec::swap_remove(i)` replaces position `i` with the last element and pops
the last.  `VecStorage::remove` on an uninitialized slot is undefined
behaviour in the source; it is modelled as clearing the (empty) slot. -/
def reclaimStep {A D : Type} (st : AssetStorage A D) (i : Nat) : AssetStorage A D :=
  let old := st.handles.getD i 0
  let lastH := st.handles.getD (st.handles.length - 1) 0
  { st with
      handles := (st.handles.set i lastH).dropLast
      assets := fun j => if j = i then none else st.assets j
      bitset := fun j => if j = i then false else st.bitset j
      unusedHandles := st.unusedHandles ++ [old] }

/-- The reclamation loop, written with explicit fuel: every iteration removes
exactly one element from the live list, so fuel equal to the length of the
list always reaches the fixpoint of the loop (`reclaim_fixpoint` below proves that no
unused handle remains when the fuel runs out). -/
def reclaimFuel {A D : Type} : Nat → AssetStorage A D → AssetStorage A D
  | 0, st => st
  | n + 1, st =>
    match findUnusedIdx st st.handles 0 with
    | none => st
    | some i => reclaimFuel n (reclaimStep st i)

/-- The reclamation phase of `AssetStorage::process`: loop until no live
handle is unused. -/
def reclaim {A D : Type} (st : AssetStorage A D) : AssetStorage A D :=
  reclaimFuel st.handles.length st

/-- `AssetStorage::process` (storage.rs lines 81-126): drain the processed
queue, then reclaim unused handles.  Returns the new state and the list of
reports forwarded to the error sink. -/
def process {A D : Type} (f : D → Except String A) (st : AssetStorage A D) :
    AssetStorage A D × List AssetError :=
  let r := drain f st.processed { st with processed := [] } []
  (reclaim r.1, r.2)

/-- States of the store reachable through its public surface: allocation,
external cloning and dropping of handles, producer pushes, and maintenance
passes with an arbitrary converter. -/
inductive Reachable {A D : Type} : AssetStorage A D → Prop
  | new : Reachable AssetStorage.new
  | alloc {st : AssetStorage A D} : Reachable st → Reachable (allocate st).2
  | clone {st : AssetStorage A D} (id : Nat) :
      Reachable st → Reachable (cloneHandle st id)
  | dropExt {st : AssetStorage A D} (id : Nat) :
      Reachable st → Reachable (dropHandle st id)
  | push {st : AssetStorage A D} (item : Processed D) :
      Reachable st → Reachable (pushProcessed st item)
  | proc {st : AssetStorage A D} (f : D → Except String A) :
      Reachable st → Reachable (process f st).1

/-- The presence bitset agrees with slot initialization: the invariant half
`presence.contains(id) ⇔ array[id] is initialized` of the spec. -/
def BitsetMatches {A D : Type} (st : AssetStorage A D) : Prop :=
  ∀ id, st.bitset id = true ↔ (st.assets id).isSome = true

/- Concrete trace A: two handles materialized with the queue in reverse id
order, then the external clone of handle 0 is dropped and `process` runs
again.  Used to evaluate the reclamation pass at a concrete input. -/

/-- Trace A after two allocations: ids 0 and 1, both externally held. -/
def stA2 : AssetStorage Nat Nat := (allocate (allocate AssetStorage.new).2).2

/-- Trace A: items pushed for handle 1 first, then handle 0. -/
def stA4 : AssetStorage Nat Nat :=
  pushProcessed (pushProcessed stA2 ⟨Except.ok 11, "fmt", 1, "one"⟩)
    ⟨Except.ok 10, "fmt", 0, "zero"⟩

/-- Trace A after the first maintenance pass: both assets integrated, live
list `[1, 0]`. -/
def stA5 : AssetStorage Nat Nat := (process (fun d => Except.ok d) stA4).1

/-- Trace A after dropping the only external clone of handle 0. -/
def stA6 : AssetStorage Nat Nat := dropHandle stA5 0

/-- Trace A after the second maintenance pass (the one the spec says must
reclaim the value of handle 0). -/
def stA7 : AssetStorage Nat Nat := (process (fun d => Except.ok d) stA6).1

/- Concrete trace B: handle 1 is materialized and then fully dropped; a fresh
item for handle 0 is pushed and `process` runs.  Used to evaluate the
round-trip property at a concrete input. -/

/-- Trace B: allocate ids 0 and 1, materialize handle 1. -/
def stB4 : AssetStorage Nat Nat :=
  (process (fun d => Except.ok d)
    (pushProcessed (allocate (allocate AssetStorage.new).2).2
      ⟨Except.ok 11, "fmt", 1, "one"⟩)).1

/-- Trace B: drop the external clone of handle 1, then push an item for handle 0. -/
def stB6 : AssetStorage Nat Nat :=
  pushProcessed (dropHandle stB4 1) ⟨Except.ok 10, "fmt", 0, "zero"⟩

/-- Trace B after the maintenance pass integrating the item of handle 0. -/
def stB7 : AssetStorage Nat Nat := (process (fun d => Except.ok d) stB6).1

/-- Witness state for the failure-isolation theorem: a fresh store whose
queue holds one failing and one succeeding item. -/
def stD : AssetStorage Nat Nat :=
  { assets := fun _ => none
    bitset := fun _ => false
    handles := []
    nextId := 2
    processed := [⟨Except.error "e", "fmtF", 0, "bad"⟩, ⟨Except.ok 7, "fmtG", 1, "good"⟩]
    unusedHandles := []
    extCount := fun j => if j = 0 then 1 else if j = 1 then 1 else 0 }

/-- Witness state for the uniqueness-count theorem: handle 3 held once by the
live list and once externally. -/
def stC : AssetStorage Nat Nat :=
  { assets := fun j => if j = 3 then some 9 else none
    bitset := fun j => decide (j = 3)
    handles := [3]
    nextId := 4
    processed := []
    unusedHandles := []
    extCount := fun j => if j = 3 then 1 else 0 }

end Amethyst

namespace Amethyst

/-! Embedding of `src/amethyst_core/src/named.rs` and the spec-modelled
`CachedStorage` wrapper around it. -/

/-- The `Named` component: a name string (a copy-on-write string modelled as
`String`). -/
structure Named where
  name : String
deriving DecidableEq

/-- `NameCache` (named.rs lines 188-190): a map from name to slot id,
modelled as a function `String → Option Nat` (`FnvHashMap` semantics:
`insert` overwrites, `remove` deletes). -/
structure NameCache where
  map : String → Option Nat

/-- `Cache::on_get` for `NameCache`: a no-op. -/
def NameCache.on_get (_c : NameCache) (_id : Nat) (_val : Named) : Unit := ()

/-- `NameCache::on_update` (named.rs lines 195-197):
`self.map.insert(val.name.clone(), id)` — note it does not touch any mapping
a previous value of this slot may have left under a different key. -/
def NameCache.on_update (c : NameCache) (id : Nat) (val : Named) : NameCache :=
  { map := fun k => if k = val.name then some id else c.map k }

/-- `NameCache::on_remove` (named.rs lines 199-203):
`self.map.remove(&val.name)` — unconditionally, whatever id the mapping
currently holds — then the value is passed through unchanged. -/
def NameCache.on_remove (c : NameCache) (_id : Nat) (val : Named) :
    NameCache × Named :=
  ({ map := fun k => if k = val.name then none else c.map k }, val)

/-- `FindNamed::find` (named.rs lines 25-32): look the key up in the cache
map and translate the id to an entity via `entities.get(i)`; the translation
is modelled as the identity on ids. -/
def find (c : NameCache) (s : String) : Option Nat := c.map s

/-- Primary storage decorated by the cache: the slot assignment (an
association list with at most one entry per id, kept so by construction) plus
the `NameCache`. -/
structure NamedStorage where
  slots : List (Nat × Named)
  cache : NameCache

/-- Value currently held by slot `id`. -/
def lookupSlot (st : NamedStorage) (id : Nat) : Option Named :=
  (st.slots.find? (fun p => p.1 == id)).map Prod.snd

/-- Modelled from the spec: the `CachedStorage` wrapper (in `util`, not under
`src/`) invokes the cache hooks at each mutation of the primary storage; on
insert or update it writes the slot and calls `on_update` with the new
value. -/
def insertNamed (st : NamedStorage) (id : Nat) (v : Named) : NamedStorage :=
  { slots := (st.slots.filter (fun p => p.1 != id)) ++ [(id, v)]
    cache := st.cache.on_update id v }

/-- Modelled from the spec: on remove, the `CachedStorage` wrapper takes the
stored value out of the slot and passes it through `on_remove`, returning it
to the caller; removing an unoccupied slot is a no-op. -/
def removeNamed (st : NamedStorage) (id : Nat) : NamedStorage × Option Named :=
  match lookupSlot st id with
  | none => (st, none)
  | some v =>
    let r := st.cache.on_remove id v
    ({ slots := st.slots.filter (fun p => p.1 != id), cache := r.1 }, some r.2)

/-- An operation on the decorated storage: insert-or-update, or remove. -/
inductive NamedOp where
  | ins (id : Nat) (v : Named)
  | rem (id : Nat)

/-- Apply one operation. -/
def applyOp (st : NamedStorage) : NamedOp → NamedStorage
  | NamedOp.ins id v => insertNamed st id v
  | NamedOp.rem id => (removeNamed st id).1

/-- Apply a sequence of operations, front first. -/
def applyOps (st : NamedStorage) : List NamedOp → NamedStorage
  | [] => st
  | op :: rest => applyOps (applyOp st op) rest

/-- Is `k` the key of some currently occupied slot? -/
def keyOccupied (st : NamedStorage) (k : String) : Bool :=
  st.slots.any (fun p => p.2.name == k)

/-- Cache consistency, the invariant of the claim: every mapped key points at
an occupied slot whose value carries that key, and the key of every occupied
slot maps back to that slot. -/
def CacheConsistent (st : NamedStorage) : Prop :=
  (∀ k id, find st.cache k = some id →
      ∃ v, lookupSlot st id = some v ∧ v.name = k)
  ∧ (∀ id v, lookupSlot st id = some v → find st.cache v.name = some id)

/-- Side condition under which an insert keeps the cache consistent: either
the slot is occupied and the key is unchanged, or the slot is empty and the
key is not currently carried by any occupied slot. -/
def insOK (st : NamedStorage) (id : Nat) (v : Named) : Prop :=
  match lookupSlot st id with
  | some w => w.name = v.name
  | none => ∀ j w, lookupSlot st j = some w → w.name ≠ v.name

/-- All inserts of the sequence satisfy `insOK` at their application state. -/
def OpsOK (st : NamedStorage) : List NamedOp → Prop
  | [] => True
  | NamedOp.ins id v :: rest =>
    insOK st id v ∧ OpsOK (applyOp st (NamedOp.ins id v)) rest
  | NamedOp.rem id :: rest => OpsOK (applyOp st (NamedOp.rem id)) rest

/-- The empty decorated storage. -/
def emptyNamed : NamedStorage :=
  { slots := [], cache := { map := fun _ => none } }

/-- Counterexample state: slot 1 receives key "a", then a key-changing update
to "b". -/
def stN : NamedStorage :=
  applyOps emptyNamed [NamedOp.ins 1 ⟨"a"⟩, NamedOp.ins 1 ⟨"b"⟩]

end Amethyst

namespace Amethyst

/-! Embedding of `src/src/asset_manager/asset.rs`: `AssetStoreError` and the
`From<io::Error>` conversion, which dispatches on `e.kind()`. -/

/-- `std::io::ErrorKind`, the stable variants of the era of this source. -/
inductive ErrorKind where
  | notFound
  | permissionDenied
  | connectionRefused
  | connectionReset
  | connectionAborted
  | notConnected
  | addrInUse
  | addrNotAvailable
  | brokenPipe
  | alreadyExists
  | wouldBlock
  | invalidInput
  | invalidData
  | timedOut
  | writeZero
  | interrupted
  | other
  | unexpectedEof
deriving DecidableEq, Fintype

/-- The `Debug` rendering of an `ErrorKind`, used by the catch-all arm and its
`format!("Other: {:?}", x)`. -/
def ErrorKind.debugStr : ErrorKind → String
  | ErrorKind.notFound => "NotFound"
  | ErrorKind.permissionDenied => "PermissionDenied"
  | ErrorKind.connectionRefused => "ConnectionRefused"
  | ErrorKind.connectionReset => "ConnectionReset"
  | ErrorKind.connectionAborted => "ConnectionAborted"
  | ErrorKind.notConnected => "NotConnected"
  | ErrorKind.addrInUse => "AddrInUse"
  | ErrorKind.addrNotAvailable => "AddrNotAvailable"
  | ErrorKind.brokenPipe => "BrokenPipe"
  | ErrorKind.alreadyExists => "AlreadyExists"
  | ErrorKind.wouldBlock => "WouldBlock"
  | ErrorKind.invalidInput => "InvalidInput"
  | ErrorKind.invalidData => "InvalidData"
  | ErrorKind.timedOut => "TimedOut"
  | ErrorKind.writeZero => "WriteZero"
  | ErrorKind.interrupted => "Interrupted"
  | ErrorKind.other => "Other"
  | ErrorKind.unexpectedEof => "UnexpectedEof"

/-- `AssetStoreError` (asset.rs lines 90-109). -/
inductive AssetStoreError where
  | noSuchAsset
  | permissionDenied
  | timeout
  | notAvailable
  | otherErr (s : String)
deriving DecidableEq

/-- Is this the catch-all `Other(_)` variant? -/
def AssetStoreError.isOther : AssetStoreError → Bool
  | AssetStoreError.otherErr _ => true
  | _ => false

/-- `From<IoError> for AssetStoreError` (asset.rs lines 111-127), as a
function of the error kind. -/
def AssetStoreError.fromKind : ErrorKind → AssetStoreError
  | ErrorKind.notFound => AssetStoreError.noSuchAsset
  | ErrorKind.permissionDenied => AssetStoreError.permissionDenied
  | ErrorKind.connectionRefused => AssetStoreError.notAvailable
  | ErrorKind.connectionAborted => AssetStoreError.notAvailable
  | ErrorKind.connectionReset => AssetStoreError.notAvailable
  | ErrorKind.notConnected => AssetStoreError.notAvailable
  | ErrorKind.addrInUse => AssetStoreError.notAvailable
  | ErrorKind.addrNotAvailable => AssetStoreError.notAvailable
  | ErrorKind.brokenPipe => AssetStoreError.notAvailable
  | ErrorKind.timedOut => AssetStoreError.timeout
  | x => AssetStoreError.otherErr ("Other: " ++ x.debugStr)

end Amethyst

namespace Amethyst

/-! Helper lemmas about the reclamation loop. -/

/-- If no handle of `l` is unused, `position` finds nothing. -/
theorem findUnusedIdx_none {A D : Type} (st : AssetStorage A D) :
    ∀ (l : List Nat) (k : Nat), (∀ id ∈ l, st.is_unused id = false) →
      findUnusedIdx st l k = none := by
  intro l
  induction l with
  | nil => intro k _; rfl
  | cons hd tl ih =>
    intro k h
    have hhd : st.is_unused hd = false := h hd (List.mem_cons_self hd tl)
    simp only [findUnusedIdx, hhd, Bool.false_eq_true, if_false]
    exact ih (k + 1) fun id hm => h id (List.mem_cons_of_mem hd hm)

/-- The reclamation phase is the identity when no live handle is unused. -/
theorem reclaim_no_unused {A D : Type} (st : AssetStorage A D)
    (h : ∀ id ∈ st.handles, st.is_unused id = false) : reclaim st = st := by
  unfold reclaim
  cases hl : st.handles.length with
  | zero => rfl
  | succ n => simp [reclaimFuel, findUnusedIdx_none st st.handles 0 h]

/-- A cell with strong count at least 2 is not unused. -/
theorem is_unused_false_of_two_le {A D : Type} {st : AssetStorage A D} {id : Nat}
    (h : 2 ≤ strongCount st id) : st.is_unused id = false := by
  simp only [AssetStorage.is_unused, beq_eq_false_iff_ne, ne_eq]
  omega

/-- A reclamation step removes exactly one element from the live list. -/
theorem reclaimStep_handles_length {A D : Type} (st : AssetStorage A D) (i : Nat) :
    (reclaimStep st i).handles.length = st.handles.length - 1 := by
  simp [reclaimStep]

/-- `position` never reports an index on an empty list. -/
theorem findUnusedIdx_ne_nil {A D : Type} {st : AssetStorage A D} {l : List Nat}
    {k i : Nat} (h : findUnusedIdx st l k = some i) : l ≠ [] := by
  intro hnil
  subst hnil
  exact Option.noConfusion h

/-- Fuel adequacy: with fuel at least the length of the live list, the fueled
loop reaches the true fixpoint of the source loop — when it stops, no unused
handle remains.  This justifies encoding the `while` loop with fuel equal to
the initial list length. -/
theorem reclaimFuel_fixpoint {A D : Type} :
    ∀ (n : Nat) (st : AssetStorage A D), st.handles.length ≤ n →
      findUnusedIdx (reclaimFuel n st) (reclaimFuel n st).handles 0 = none := by
  intro n
  induction n with
  | zero =>
    intro st h
    have : st.handles = [] := List.length_eq_zero.mp (Nat.le_zero.mp h)
    simp only [reclaimFuel]
    rw [this]
    rfl
  | succ n ih =>
    intro st h
    cases hf : findUnusedIdx st st.handles 0 with
    | none => simp [reclaimFuel, hf]
    | some i =>
      have hne : st.handles ≠ [] := findUnusedIdx_ne_nil hf
      have hlen : (reclaimStep st i).handles.length ≤ n := by
        rw [reclaimStep_handles_length]
        have : 1 ≤ st.handles.length := by
          cases hh : st.handles with
          | nil => exact absurd hh hne
          | cons a l => simp
        omega
      simpa [reclaimFuel, hf] using ih (reclaimStep st i) hlen

/-- The reclamation loop as a whole stops only at a state with no unused live
handle, exactly like the source `while` loop. -/
theorem reclaim_fixpoint {A D : Type} (st : AssetStorage A D) :
    findUnusedIdx (reclaim st) (reclaim st).handles 0 = none :=
  reclaimFuel_fixpoint st.handles.length st le_rfl

/-! The concrete traces are reachable through the public surface. -/

/-- Trace A reaches `stA7` by two allocations, two pushes, a maintenance
pass, one external drop and a second maintenance pass. -/
theorem stA7_reachable : Reachable stA7 :=
  Reachable.proc (fun d => Except.ok d)
    (Reachable.dropExt 0
      (Reachable.proc (fun d => Except.ok d)
        (Reachable.push ⟨Except.ok 10, "fmt", 0, "zero"⟩
          (Reachable.push ⟨Except.ok 11, "fmt", 1, "one"⟩
            (Reachable.alloc (Reachable.alloc Reachable.new))))))

/-- Trace B reaches `stB7`. -/
theorem stB7_reachable : Reachable stB7 :=
  Reachable.proc (fun d => Except.ok d)
    (Reachable.push ⟨Except.ok 10, "fmt", 0, "zero"⟩
      (Reachable.dropExt 1
        (Reachable.proc (fun d => Except.ok d)
          (Reachable.push ⟨Except.ok 11, "fmt", 1, "one"⟩
            (Reachable.alloc (Reachable.alloc Reachable.new))))))

/-- Claim C1: the spec says that once all external clones of a materialized
handle are dropped, the next `process` removes its value (its `get` becomes
`None`, its presence bit is cleared) and recycles the handle.  The code
instead clears the slot at the *list position* of the unused handle
(`let id = i as u32;`), so at this input — handle 0 materialized at list
position 1 — the next `process` leaves the value of handle 0 in place with
its presence bit set while destroying the value of the still-live handle 1;
only the free-pool half of the claim happens.  This theorem evaluates the
code at the failing input. -/
theorem C1_reclamation_removes_wrong_slot :
    stA5.handles = [1, 0] ∧ stA5.bitset 0 = true
      ∧ stA6.extCount 0 = 0
      ∧ get stA7 0 = some 10 ∧ stA7.bitset 0 = true
      ∧ stA7.unusedHandles = [0]
      ∧ get stA7 1 = none ∧ stA7.bitset 1 = false ∧ stA6.extCount 1 = 1 := by
  decide

/-- Claim C2: the spec says a reclaimed-and-reissued id can never observe the
previous occupant of its slot via `get`.  At the end of trace A the cell of
handle 0 sits in the free pool while slot 0 is still occupied by the old
value, so the very next `allocate` reissues id 0 and `get` on the reissued
handle returns the previous occupant.  This theorem evaluates the code at the
failing input. -/
theorem C2_reissued_id_observes_old_value :
    (allocate stA7).1 = 0 ∧ stA7.unusedHandles = [0]
      ∧ stA7.bitset 0 = true
      ∧ get (allocate stA7).2 0 = some 10 := by
  decide

/-- Claim C3: the spec invariant `presence.contains(id) ⇔ array[id]
initialized ⇔ some live handle has that id` fails at the reachable state
`stA7`: handle 1 is in the live list with its presence bit cleared, and the
presence bit of id 0 is set although no live handle carries id 0.  This
theorem evaluates the code at the failing input. -/
theorem C3_presence_invariant_violated :
    stA7.handles = [1] ∧ stA7.bitset 1 = false
      ∧ stA7.bitset 0 = true ∧ stA7.handles.count 0 = 0 := by
  decide

/-- Claim C6: the spec round-trip property — push `{Ok(d), h}` then `process`
with an `Ok` converter and `get(h)` returns the converted value while `h` is
still externally held — fails at `stB6`: the queued item for handle 0 is
integrated, but the buggy reclamation of the unused handle 1 (list position 0)
then clears slot 0, so `get` returns `None`.  This theorem evaluates the code
at the failing input: the premises of the claim hold at `stB6` (the queue
holds exactly the item, with an external clone of handle 0 alive), yet `get`
after `process` is `None` instead of `some 10`. -/
theorem C6_round_trip_clobbered :
    stB6.processed = [⟨Except.ok 10, "fmt", 0, "zero"⟩]
      ∧ stB6.extCount 0 = 1
      ∧ stB6.handles = [1]
      ∧ get stB7 0 = none ∧ stB7.bitset 0 = false :=
  ⟨rfl, rfl, rfl, rfl, rfl⟩

end Amethyst

namespace Amethyst

/-! The presence bitset tracks slot initialization across every operation:
the machinery for the stale-access safety claim. -/

/-- One drained item preserves the bitset/initialization agreement: the
success path sets the presence bit and writes the slot at the same id. -/
theorem bitsetMatches_processItem {A D : Type} {f : D → Except String A}
    {st : AssetStorage A D} {item : Processed D} (h : BitsetMatches st) :
    BitsetMatches (processItem f st item).1 := by
  unfold processItem
  cases hd : item.data.bind f with
  | error e => exact h
  | ok a =>
    intro id
    by_cases hid : id = item.handle <;> simp [hid, h id]

/-- The whole drain preserves the bitset/initialization agreement. -/
theorem bitsetMatches_drain {A D : Type} (f : D → Except String A) :
    ∀ (items : List (Processed D)) (st : AssetStorage A D) (errs : List AssetError),
      BitsetMatches st → BitsetMatches (drain f items st errs).1 := by
  intro items
  induction items with
  | nil => intro st errs h; exact h
  | cons item rest ih =>
    intro st errs h
    have h1 : BitsetMatches (processItem f st item).1 := bitsetMatches_processItem h
    rcases hpi : processItem f st item with ⟨st1, oe⟩
    rw [hpi] at h1
    cases oe <;> simp only [drain, hpi] <;> exact ih st1 _ h1

/-- A reclamation step preserves the agreement: the slot entry and the
presence bit are cleared at the same index (even though that index is the
wrong one with respect to handle ids). -/
theorem bitsetMatches_reclaimStep {A D : Type} {st : AssetStorage A D} {i : Nat}
    (h : BitsetMatches st) : BitsetMatches (reclaimStep st i) := by
  intro id
  by_cases hid : id = i <;> simp [reclaimStep, hid, h id]

/-- The fueled reclamation loop preserves the agreement. -/
theorem bitsetMatches_reclaimFuel {A D : Type} :
    ∀ (n : Nat) (st : AssetStorage A D),
      BitsetMatches st → BitsetMatches (reclaimFuel n st) := by
  intro n
  induction n with
  | zero => intro st h; exact h
  | succ n ih =>
    intro st h
    cases hf : findUnusedIdx st st.handles 0 with
    | none => simpa [reclaimFuel, hf] using h
    | some i =>
      simp only [reclaimFuel, hf]
      exact ih _ (bitsetMatches_reclaimStep h)

/-- Every reachable state satisfies `presence.contains(id) ⇔ array[id]
initialized`: the half of the storage invariant that guards the `unsafe`
reads of `get`/`get_mut`. -/
theorem reachable_bitsetMatches {A D : Type} {st : AssetStorage A D}
    (h : Reachable st) : BitsetMatches st := by
  induction h with
  | new => intro id; simp [AssetStorage.new]
  | @alloc st _ ih =>
    unfold allocate
    cases hu : st.unusedHandles with
    | nil => exact ih
    | cons a l => exact ih
  | clone id _ ih => exact ih
  | dropExt id _ ih => exact ih
  | push item _ ih => exact ih
  | @proc st f _ ih =>
    simp only [process]
    exact bitsetMatches_reclaimFuel _ _
      (bitsetMatches_drain f st.processed { st with processed := [] } [] ih)

/-- Claim C7: in every reachable state, `get` and `get_mut` return `None`
exactly when the presence bit of the queried id is clear, and whenever the
guard lets the access through the underlying slot is initialized and the
stored value is returned — stale-handle access is a defined absent result and
the `unsafe` indexed read never touches an uninitialized slot. -/
theorem C7_stale_access_guarded {A D : Type} [Inhabited A] {st : AssetStorage A D}
    (hr : Reachable st) (id : Nat) :
    (get st id = none ↔ st.bitset id = false)
      ∧ (get_mut st id = none ↔ st.bitset id = false)
      ∧ (st.bitset id = true →
          ∃ a, st.assets id = some a ∧ get st id = some a ∧ get_mut st id = some a) := by
  have hbm := reachable_bitsetMatches hr id
  refine ⟨?_, ?_, ?_⟩
  · cases hb : st.bitset id <;> simp [get, hb]
  · cases hb : st.bitset id <;> simp [get_mut, hb]
  · intro hb
    have hs : (st.assets id).isSome = true := hbm.mp hb
    cases ha : st.assets id with
    | none => rw [ha] at hs; exact Bool.noConfusion hs
    | some a => exact ⟨a, rfl, by simp [get, hb, ha], by simp [get_mut, hb, ha]⟩

/-- Witness for the stale-access theorem at the empty store: the hypothesis
`Reachable` is discharged by the initial state and `get` of any id is the
defined absent result. -/
theorem C7_witness : get (AssetStorage.new : AssetStorage Nat Nat) 5 = none :=
  (C7_stale_access_guarded Reachable.new 5).1.mpr rfl

end Amethyst

namespace Amethyst

/-- Claim C5: failure isolation.  From a fresh store whose queue holds one
failing and one succeeding item — in either push order — a single `process`
yields exactly one error-sink report, tagged with the name and format of the
failing item; exactly one slot is occupied (the one of the succeeding
handle); the failing handle is not added to the live list and its slot stays
unoccupied; the conversion failure does not abort the drain. -/
theorem C5_failure_isolation {A D : Type} (st : AssetStorage A D)
    (f : D → Except String A) (p q : Processed D) (ep : String) (aq : A)
    (horder : st.processed = [p, q] ∨ st.processed = [q, p])
    (hfail : p.data.bind f = Except.error ep)
    (hok : q.data.bind f = Except.ok aq)
    (hh : st.handles = [])
    (hbit : ∀ id, st.bitset id = false)
    (hassets : ∀ id, st.assets id = none)
    (hne : p.handle ≠ q.handle)
    (hext : 1 ≤ st.extCount q.handle) :
    (process f st).2 = [⟨p.name, p.format, ep⟩]
      ∧ (process f st).1.handles = [q.handle]
      ∧ (∀ id, (process f st).1.bitset id = true ↔ id = q.handle)
      ∧ (process f st).1.assets q.handle = some aq
      ∧ (process f st).1.assets p.handle = none := by
  have hrec : ∀ st1 : AssetStorage A D, st1.handles = [q.handle] →
      st1.extCount q.handle = st.extCount q.handle → reclaim st1 = st1 := by
    intro st1 h1 h2
    apply reclaim_no_unused
    intro id hid
    rw [h1] at hid
    rw [List.mem_singleton] at hid
    subst hid
    apply is_unused_false_of_two_le
    unfold strongCount
    rw [h1, h2]
    have hcnt : List.count q.handle [q.handle] = 1 := by simp
    omega
  suffices hps : process f st =
      ({ st with
          processed := [],
          bitset := fun j => if j = q.handle then true else st.bitset j,
          handles := st.handles ++ [q.handle],
          assets := fun j => if j = q.handle then some aq else st.assets j },
        [⟨p.name, p.format, ep⟩]) by
    rw [hps]
    refine ⟨rfl, ?_, ?_, ?_, ?_⟩
    · simp [hh]
    · intro id
      by_cases hid : id = q.handle <;> simp [hid, hbit]
    · simp
    · simp only []
      rw [if_neg hne]
      exact hassets p.handle
  have hstep : drain f st.processed { st with processed := [] } [] =
      ({ st with
          processed := [],
          bitset := fun j => if j = q.handle then true else st.bitset j,
          handles := st.handles ++ [q.handle],
          assets := fun j => if j = q.handle then some aq else st.assets j },
        [⟨p.name, p.format, ep⟩]) := by
    cases horder with
    | inl hq => rw [hq]; simp [drain, processItem, hfail, hok]
    | inr hq => rw [hq]; simp [drain, processItem, hfail, hok]
  simp only [process, hstep]
  rw [Prod.mk.injEq]
  exact ⟨hrec _ (by simp [hh]) rfl, rfl⟩

/-- Witness for the failure-isolation theorem at the concrete store `stD`
(queue = failing item for handle 0, then succeeding item for handle 1). -/
theorem C5_witness :
    (process (fun d => Except.ok d) stD).2 = [⟨"bad", "fmtF", "e"⟩]
      ∧ (process (fun d => Except.ok d) stD).1.handles = [1]
      ∧ (process (fun d => Except.ok d) stD).1.assets 1 = some 7
      ∧ (process (fun d => Except.ok d) stD).1.assets 0 = none := by
  have h := C5_failure_isolation stD (fun d => Except.ok d)
    ⟨Except.error "e", "fmtF", 0, "bad"⟩ ⟨Except.ok 7, "fmtG", 1, "good"⟩
    "e" 7 (Or.inl rfl) rfl rfl rfl (fun _ => rfl) (fun _ => rfl)
    (by decide) (by decide)
  exact ⟨h.1, h.2.1, h.2.2.2.1, h.2.2.2.2⟩

/-- Claim C9: `is_unique` is the strong count being exactly 2, and — when the
live list holds exactly one copy of the cell of the handle and neither the
free pool nor the queue holds one — that is equivalent to exactly one
external holder remaining, the reading the spec attaches to the constant. -/
theorem C9_is_unique_count {A D : Type} (st : AssetStorage A D) (id : Nat)
    (h1 : st.handles.count id = 1)
    (h2 : st.unusedHandles.count id = 0)
    (h3 : (st.processed.map Processed.handle).count id = 0) :
    (st.is_unique id = true ↔ strongCount st id = 2)
      ∧ (st.is_unique id = true ↔ st.extCount id = 1) := by
  constructor
  · simp [AssetStorage.is_unique]
  · simp only [AssetStorage.is_unique, beq_iff_eq, strongCount, h1, h2, h3]
    omega

/-- Witness for the uniqueness-count theorem at the concrete store `stC`. -/
theorem C9_witness :
    ((stC.is_unique 3 = true ↔ strongCount stC 3 = 2)
      ∧ (stC.is_unique 3 = true ↔ stC.extCount 3 = 1)) :=
  C9_is_unique_count stC 3 rfl rfl rfl

/-- Claim C10: the conversion from an I/O error kind to `AssetStoreError` is
total, sending `NotFound` to `NoSuchAsset`, `PermissionDenied` to
`PermissionDenied`, `TimedOut` to `Timeout`, each connection-related kind to
`NotAvailable`, and every remaining kind to the catch-all `Other(_)`. -/
theorem C10_from_io_kind_total :
    AssetStoreError.fromKind ErrorKind.notFound = AssetStoreError.noSuchAsset
      ∧ AssetStoreError.fromKind ErrorKind.permissionDenied
          = AssetStoreError.permissionDenied
      ∧ AssetStoreError.fromKind ErrorKind.timedOut = AssetStoreError.timeout
      ∧ (∀ k ∈ [ErrorKind.connectionRefused, ErrorKind.connectionAborted,
            ErrorKind.connectionReset, ErrorKind.notConnected, ErrorKind.addrInUse,
            ErrorKind.addrNotAvailable, ErrorKind.brokenPipe],
          AssetStoreError.fromKind k = AssetStoreError.notAvailable)
      ∧ (∀ k, k ∉ [ErrorKind.notFound, ErrorKind.permissionDenied,
            ErrorKind.timedOut, ErrorKind.connectionRefused,
            ErrorKind.connectionAborted, ErrorKind.connectionReset,
            ErrorKind.notConnected, ErrorKind.addrInUse,
            ErrorKind.addrNotAvailable, ErrorKind.brokenPipe] →
          (AssetStoreError.fromKind k).isOther = true) := by
  refine ⟨rfl, rfl, rfl, ?_, ?_⟩
  · decide
  · decide

/-- Witness for the error-kind conversion theorem at two concrete kinds. -/
theorem C10_witness :
    AssetStoreError.fromKind ErrorKind.connectionReset = AssetStoreError.notAvailable
      ∧ (AssetStoreError.fromKind ErrorKind.wouldBlock).isOther = true :=
  ⟨C10_from_io_kind_total.2.2.2.1 ErrorKind.connectionReset (by decide),
    C10_from_io_kind_total.2.2.2.2 ErrorKind.wouldBlock (by decide)⟩

end Amethyst

namespace Amethyst

/-! Lemmas about the decorated `Named` storage and its cache. -/

/-- After erasing the entries with key `id`, a search for key `id` fails. -/
theorem find?_filter_id_self (l : List (Nat × Named)) (id : Nat) :
    (l.filter (fun p => p.1 != id)).find? (fun p => p.1 == id) = none := by
  induction l with
  | nil => rfl
  | cons hd tl ih =>
    rw [List.filter_cons]
    by_cases h : hd.1 = id
    · simp only [h, bne_self_eq_false, if_false]
      exact ih
    · rw [if_pos (by simp [h])]
      rw [List.find?_cons_of_neg _ (by simp [h])]
      exact ih

/-- Erasing the entries with key `id` does not change a search for another
key. -/
theorem find?_filter_id_ne (l : List (Nat × Named)) (id j : Nat) (hj : j ≠ id) :
    (l.filter (fun p => p.1 != id)).find? (fun p => p.1 == j)
      = l.find? (fun p => p.1 == j) := by
  induction l with
  | nil => rfl
  | cons hd tl ih =>
    rw [List.filter_cons]
    by_cases h : hd.1 = id
    · rw [if_neg (by simp [h])]
      rw [ih, List.find?_cons_of_neg _ (by simp [h]; omega)]
    · rw [if_pos (by simp [h])]
      by_cases h2 : hd.1 = j
      · rw [List.find?_cons_of_pos _ (by simp [h2]),
          List.find?_cons_of_pos _ (by simp [h2])]
      · rw [List.find?_cons_of_neg _ (by simp [h2]),
          List.find?_cons_of_neg _ (by simp [h2])]
        exact ih

/-- Slot contents after an insert-or-update: the written slot holds the new
value, the others are untouched. -/
theorem lookupSlot_insert (st : NamedStorage) (id : Nat) (v : Named) (j : Nat) :
    lookupSlot (insertNamed st id v) j
      = if j = id then some v else lookupSlot st j := by
  unfold lookupSlot insertNamed
  dsimp only
  rw [List.find?_append]
  by_cases hj : j = id
  · subst hj
    rw [find?_filter_id_self]
    simp [List.find?_cons]
  · rw [find?_filter_id_ne _ _ _ hj]
    cases hf : st.slots.find? (fun p => p.1 == j) with
    | none =>
      rw [if_neg hj]
      have : (id == j) = false := by simp; omega
      simp [List.find?_cons, this, hf]
    | some a => simp [hf, hj]

/-- Cache consistency is preserved by an insert-or-update satisfying
`insOK`. -/
theorem cacheConsistent_insert {st : NamedStorage} {id : Nat} {v : Named}
    (hc : CacheConsistent st) (hok : insOK st id v) :
    CacheConsistent (insertNamed st id v) := by
  obtain ⟨hmap, hslot⟩ := hc
  have hcache : ∀ k, find (insertNamed st id v).cache k
      = if k = v.name then some id else st.cache.map k := fun k => rfl
  constructor
  · intro k j hk
    rw [hcache k] at hk
    by_cases hkv : k = v.name
    · rw [if_pos hkv] at hk
      obtain rfl : id = j := Option.some.inj hk
      refine ⟨v, ?_, hkv.symm⟩
      rw [lookupSlot_insert, if_pos rfl]
    · rw [if_neg hkv] at hk
      obtain ⟨u, hu, hun⟩ := hmap k j hk
      have hji : j ≠ id := by
        intro hj
        subst hj
        unfold insOK at hok
        split at hok
        · next w hw =>
          rw [hw] at hu
          obtain rfl : w = u := Option.some.inj hu
          exact hkv (hun ▸ hok ▸ rfl)
        · next hnone =>
          rw [hnone] at hu
          exact Option.noConfusion hu
      rw [lookupSlot_insert, if_neg hji]
      exact ⟨u, hu, hun⟩
  · intro j u hu
    rw [lookupSlot_insert] at hu
    by_cases hj : j = id
    · rw [if_pos hj] at hu
      obtain rfl : v = u := Option.some.inj hu
      rw [hcache v.name, if_pos rfl, hj]
    · rw [if_neg hj] at hu
      have hfind := hslot j u hu
      have hne : u.name ≠ v.name := by
        intro he
        unfold insOK at hok
        split at hok
        · next w hw =>
          have h2 := hslot id w hw
          rw [hok] at h2
          rw [← he] at h2
          rw [hfind] at h2
          exact hj (Option.some.inj h2)
        · next hnone => exact hok j u hu he
      rw [hcache u.name, if_neg hne]
      exact hfind

/-- Cache consistency is preserved by a remove. -/
theorem cacheConsistent_remove {st : NamedStorage} {id : Nat}
    (hc : CacheConsistent st) : CacheConsistent (removeNamed st id).1 := by
  obtain ⟨hmap, hslot⟩ := hc
  unfold removeNamed
  split
  · exact ⟨hmap, hslot⟩
  · next v hv =>
    dsimp only
    constructor
    · intro k j hk
      by_cases hkv : k = v.name
      · exfalso
        have : (if k = v.name then none else st.cache.map k) = some j := hk
        rw [if_pos hkv] at this
        exact Option.noConfusion this
      · have hk2 : st.cache.map k = some j := by
          have : (if k = v.name then none else st.cache.map k) = some j := hk
          rwa [if_neg hkv] at this
        obtain ⟨u, hu, hun⟩ := hmap k j hk2
        have hji : j ≠ id := by
          intro hj
          subst hj
          rw [hv] at hu
          obtain rfl : v = u := Option.some.inj hu
          exact hkv hun.symm
        refine ⟨u, ?_, hun⟩
        unfold lookupSlot
        dsimp only
        rw [find?_filter_id_ne _ _ _ hji]
        exact hu
    · intro j u hu
      have hji : j ≠ id := by
        intro hj
        subst hj
        unfold lookupSlot at hu
        dsimp only at hu
        rw [find?_filter_id_self] at hu
        exact Option.noConfusion hu
      have hu2 : lookupSlot st j = some u := by
        unfold lookupSlot at hu ⊢
        dsimp only at hu
        rwa [find?_filter_id_ne _ _ _ hji] at hu
      have hfind := hslot j u hu2
      have hne : u.name ≠ v.name := by
        intro he
        have h2 := hslot id v hv
        rw [← he, hfind] at h2
        exact hji (Option.some.inj h2)
      show (if u.name = v.name then none else st.cache.map u.name) = some j
      rw [if_neg hne]
      exact hfind

end Amethyst

namespace Amethyst

/-- Claim C4 counterexample: after inserting key "a" at slot 1 and then a
key-changing update of slot 1 to key "b", `find "a"` still returns slot 1
although no occupied slot carries key "a" — `on_update` never removes the
stale mapping of the old key, so the claimed invariant fails at this concrete
operation sequence. -/
theorem C4_stale_mapping_after_key_change :
    find stN.cache "a" = some 1 ∧ keyOccupied stN "a" = false
      ∧ lookupSlot stN 1 = some ⟨"b"⟩ := by
  decide

/-- Claim C4 (amended): the consistency invariant — `find` maps the key of
every occupied slot to that slot and nothing else — holds after any sequence
of inserts and removes in which every insert either keeps the key of an
occupied slot unchanged or uses a key not carried by any occupied slot
(`OpsOK`); key-changing updates are excluded, because `on_update` leaves the
stale mapping of the old key in place (see the counterexample).  Applying the
theorem to each prefix of the sequence gives the invariant after each
operation. -/
theorem C4_cache_consistency_amended (st : NamedStorage) (ops : List NamedOp)
    (hc : CacheConsistent st) (hok : OpsOK st ops) :
    CacheConsistent (applyOps st ops) := by
  induction ops generalizing st with
  | nil => exact hc
  | cons op rest ih =>
    cases op with
    | ins id v =>
      have h1 : insOK st id v ∧ OpsOK (applyOp st (NamedOp.ins id v)) rest := hok
      exact ih _ (cacheConsistent_insert hc h1.1) h1.2
    | rem id =>
      have h1 : OpsOK (applyOp st (NamedOp.rem id)) rest := hok
      exact ih _ (cacheConsistent_remove hc) h1

/-- Witness for the amended cache-consistency theorem on a concrete
insert-then-remove sequence from the empty storage. -/
theorem C4_amended_witness :
    CacheConsistent (applyOps emptyNamed [NamedOp.ins 1 ⟨"a"⟩, NamedOp.rem 1]) :=
  C4_cache_consistency_amended emptyNamed [NamedOp.ins 1 ⟨"a"⟩, NamedOp.rem 1]
    ⟨fun _ _ h => Option.noConfusion h, fun _ _ h => Option.noConfusion h⟩
    ⟨fun _ _ h => Option.noConfusion h, trivial⟩

/-- Claim C8 counterexample: with the cache mapping "a" to slot 5,
`on_remove(3, value named "a")` deletes the mapping even though it does not
point at id 3 — the removal is unconditional, not guarded by the id. -/
theorem C8_remove_unconditional :
    ((NameCache.mk (fun k => if k = "a" then some 5 else none)).on_remove
        3 ⟨"a"⟩).1.map "a" = none
      ∧ (NameCache.mk (fun k => if k = "a" then some 5 else none)).map "a"
          = some 5 := by
  exact ⟨rfl, rfl⟩

/-- Claim C8 (amended): `on_remove(id, value)` removes the mapping for the
key of `value` unconditionally — whatever id it currently points at — leaves
every other key untouched, and returns the value unchanged. -/
theorem C8_remove_pass_through (c : NameCache) (id : Nat) (v : Named) :
    (c.on_remove id v).2 = v
      ∧ (c.on_remove id v).1.map v.name = none
      ∧ ∀ k, k ≠ v.name → (c.on_remove id v).1.map k = c.map k := by
  refine ⟨rfl, ?_, ?_⟩
  · show (if v.name = v.name then none else c.map v.name) = none
    rw [if_pos rfl]
  · intro k hk
    show (if k = v.name then none else c.map k) = c.map k
    rw [if_neg hk]

/-- Witness for the pass-through theorem at a concrete cache and value. -/
theorem C8_pass_through_witness :
    ((NameCache.mk fun _ => none).on_remove 0 ⟨"x"⟩).2 = (⟨"x"⟩ : Named)
      ∧ ((NameCache.mk fun _ => none).on_remove 0 ⟨"x"⟩).1.map "y" = none :=
  ⟨(C8_remove_pass_through (NameCache.mk fun _ => none) 0 ⟨"x"⟩).1,
    (C8_remove_pass_through (NameCache.mk fun _ => none) 0 ⟨"x"⟩).2.2 "y"
      (by decide)⟩

end Amethyst
